import Mathlib

/-!
# Verification of the music_bot repository

Shallow embedding of `src/bot-yt.py` (Telegram music-download bot) and
`src/FastAPI.py` (mock music-generation HTTP service), with theorems
settling the specification claims.

Strings are modelled as `List Char` (Python slicing and iteration are by
code point).  Python's `\s` regex class and `str.strip` are modelled over
the ASCII whitespace characters; none of the inputs relevant to the claims
use other whitespace code points.
-/

namespace MusicBot

/-- Python `\s` (ASCII part): space, tab, newline, carriage return,
vertical tab, form feed.  Used by `re.sub(r'\s+', ' ', ...)` and `.strip()`. -/
def isPySpace (c : Char) : Bool :=
  c = ' ' || c = '\t' || c = '\n' || c = '\r' || c = '\x0b' || c = '\x0c'

/-- The denylist of `safe_title_filename`: characters removed by
`re.sub(r'[\\/:*?"<>|]', '', title)`. -/
def isBadChar (c : Char) : Bool :=
  c = '\\' || c = '/' || c = ':' || c = '*' || c = '?' || c = '"' ||
  c = '<' || c = '>' || c = '|'

/-- `re.sub(r'\s+', ' ', l)`: every maximal run of whitespace becomes one
space.  The single space for a run is emitted at the run's last character. -/
def collapseWS : List Char → List Char
  | [] => []
  | [c] => if isPySpace c then [' '] else [c]
  | c :: d :: rest =>
    if isPySpace c && isPySpace d then collapseWS (d :: rest)
    else (if isPySpace c then ' ' else c) :: collapseWS (d :: rest)

/-- Remove trailing whitespace (the right half of Python `.strip()`). -/
def dropTrailingWS : List Char → List Char
  | [] => []
  | c :: rest =>
    let r := dropTrailingWS rest
    if r = [] && isPySpace c then [] else c :: r

/-- Python `.strip()`: drop leading then trailing whitespace. -/
def stripWS (l : List Char) : List Char :=
  dropTrailingWS (l.dropWhile isPySpace)

/-- The filter+collapse+strip part of `safe_title_filename`, before the
truncation/fallback step (the value of the local `title` just before
`return`). -/
def sanitizeCore (l : List Char) : List Char :=
  stripWS (collapseWS (l.filter (fun c => !isBadChar c)))

/-- `safe_title_filename` from `src/bot-yt.py` (on `List Char`):
strip `\/:*?"<>|`, collapse whitespace runs, strip ends, then
`title[:80] if title else "audio"`. -/
def sanitizeL (l : List Char) : List Char :=
  let t := sanitizeCore l
  if t = [] then ['a', 'u', 'd', 'i', 'o'] else t.take 80

/-- `safe_title_filename` on `String`. -/
def safe_title_filename (s : String) : String :=
  ⟨sanitizeL s.data⟩

/-- Output has no two adjacent whitespace characters. -/
def noAdjWS : List Char → Bool
  | [] => true
  | [_] => true
  | c :: d :: rest => (!(isPySpace c && isPySpace d)) && noAdjWS (d :: rest)

/-- Non-Latin script ranges spoken of by the spec and the source comments:
Khmer (U+1780–U+17FF) and CJK unified ideographs (U+4E00–U+9FFF). -/
def nonLatinScript (c : Char) : Bool :=
  (0x1780 ≤ c.toNat && c.toNat ≤ 0x17FF) || (0x4e00 ≤ c.toNat && c.toNat ≤ 0x9fff)

/-! ## Search results and sessions (`search_and_show_results`) -/

/-- One raw entry of `search_info['entries']` as used by the filtering
loop: `entry.get('id')` may be `None`, `entry.get('age_limit', 0)` defaults
to 0, `entry.get('duration')` may be `None`.  A `None` entry in the list is
modelled as `Option.none` at the list level. -/
structure RawEntry where
  id : Option (List Char)
  title : List Char
  uploader : List Char
  duration : Option Nat
  age_limit : Nat
deriving DecidableEq, Repr

/-- A stored candidate: one element of `context.user_data['search_results']`. -/
structure Video where
  id : List Char
  title : List Char
  channel : List Char
  duration : Option Nat
deriving DecidableEq, Repr

/-- The candidate built from a raw entry that passed the filters. -/
def mkVideo (vid : List Char) (e : RawEntry) : Video :=
  { id := vid, title := e.title, channel := e.uploader, duration := e.duration }

/-- The per-entry filter of the result loop, as a partial map:
`None` entries and entries with `age_limit >= 18` are skipped, then entries
without an id are skipped; the rest yield a candidate. -/
def entryVideo? (e : Option RawEntry) : Option Video :=
  match e with
  | none => none
  | some e =>
    if 18 ≤ e.age_limit then none
    else match e.id with
      | none => none
      | some vid => some (mkVideo vid e)

/-- The result-collection loop of `search_and_show_results`: walk the raw
entries in order, skip `None` / age-restricted / id-less entries, append
the rest, and `break` once `valid_count` reaches 10 (the break test runs
after the append, so the 10th appended entry is kept and the walk stops).
`cnt` is the `valid_count` accumulated so far. -/
def collectResults : List (Option RawEntry) → Nat → List Video
  | [], _ => []
  | none :: rest, cnt => collectResults rest cnt
  | some e :: rest, cnt =>
    if 18 ≤ e.age_limit then collectResults rest cnt
    else match e.id with
      | none => collectResults rest cnt
      | some vid =>
        if 10 ≤ cnt + 1 then [mkVideo vid e]
        else mkVideo vid e :: collectResults rest (cnt + 1)

/-- Observable outcome of one run of `search_and_show_results`. -/
inductive SearchOutcome where
  /-- `"❌ Please type at least 2 characters."` -/
  | tooShort
  /-- `"❌ No results found."` (raw entry list empty) -/
  | noResults
  /-- `"❌ Found videos but all are age-restricted or unavailable."` -/
  | noneValid
  /-- Result list rendered with `n` selection buttons. -/
  | presented (n : Nat)
deriving DecidableEq, Repr

/-- `search_and_show_results` from `src/bot-yt.py`, as a function of the
prior session (`context.user_data['search_results']`, `none` when the key
was never set), the message text, and the raw entry list the external
index returned.  Returns the session after the handler and the outcome.
Note the order in the source: the empty-`entries` early return happens
*before* `context.user_data['search_results'] = []`, so an empty raw list
leaves the prior session in place; when at least one raw entry exists the
session is reset and then filled by the loop. -/
def search_and_show_results (prev : Option (List Video)) (text : List Char)
    (raw : List (Option RawEntry)) : Option (List Video) × SearchOutcome :=
  let query := stripWS text
  if query.length < 2 then (prev, .tooShort)
  else if raw = [] then (prev, .noResults)
  else
    let results := collectResults raw 0
    if results.length = 0 then (some results, .noneValid)
    else (some results, .presented results.length)

/-! ## Download, cache check and delivery (`button_callback`, `send_audio`) -/

/-- File names in the download directory (relative to `DOWNLOAD_DIR`). -/
def FName := List Char
deriving DecidableEq, Repr

/-- The `.mp3` suffix. -/
def mp3ext : List Char := ['.', 'm', 'p', '3']

/-- The file name `{video_id}.mp3` used for the download and the cache check. -/
def mp3PathOf (vid : List Char) : FName := vid ++ mp3ext

/-- Observable outcome of one run of `send_audio`. -/
inductive SendOutcome where
  /-- `os.path.isfile(file_path)` was false: the function returns with no
  message of any kind sent to the user. -/
  | silent
  /-- The audio was sent, from this file. -/
  | sentAudio (finalPath : FName)
  /-- Sending raised; caught, and `"❌ Failed to send MP3."` was sent. -/
  | errorText
deriving DecidableEq, Repr

/-- `send_audio` from `src/bot-yt.py`, over the set of files in the
download directory.  `sendOk` tells whether `reply_audio` succeeds (the
messaging transport is external).  If the file is missing, return silently.
Otherwise rename `file_path` to `{safe_title_filename(title)}.mp3` unless
the names coincide; a rename onto an existing file raises
`FileExistsError`, caught with fallback to the original path (Windows
`os.rename` semantics, which the source handles explicitly).  Then send
the audio; on a send failure the exception is caught and a text error is
sent. -/
def send_audio (fs : List FName) (path : FName) (title : List Char)
    (sendOk : Bool) : List FName × SendOutcome :=
  if path ∈ fs then
    let clean := sanitizeL title
    let finalName : FName := clean ++ mp3ext
    let renamed : List FName × FName :=
      if path = finalName then (fs, path)
      else if finalName ∈ fs then (fs, path)
      else ((fs.erase path) ++ [finalName], finalName)
    if sendOk then (renamed.1, .sentAudio renamed.2)
    else (renamed.1, .errorText)
  else (fs, .silent)

/-- Observable outcome of one run of `button_callback`. -/
inductive CbOutcome where
  /-- An uncaught exception (`KeyError` when no `'search_results'` key
  exists, `IndexError` on an out-of-range index) escaped the handler: no
  message of any kind was sent to the user. -/
  | crashed
  /-- `os.path.exists(mp3_path)` was true: `send_audio` ran directly. -/
  | cacheHit (s : SendOutcome)
  /-- `ydl.download` was invoked, then `send_audio`, then the progress
  message was deleted. -/
  | fetched (s : SendOutcome)
deriving DecidableEq, Repr

/-- `button_callback` from `src/bot-yt.py`.  `session` is
`context.user_data['search_results']` (`none` when the key is absent),
`idx` the parsed index from the callback data, `fs` the download
directory.  `dlProduces` tells whether `ydl.download` actually produced
`{id}.mp3` (with `ignoreerrors: True` a failed download returns without
raising and produces nothing); `sendOk` as in `send_audio`.  Returns the
file set, the number of `ydl.download` invocations (0 or 1), and the
outcome. -/
def button_callback (fs : List FName) (session : Option (List Video))
    (idx : Nat) (dlProduces : Bool) (sendOk : Bool) :
    List FName × Nat × CbOutcome :=
  match session with
  | none => (fs, 0, .crashed)
  | some vids =>
    match vids.get? idx with
    | none => (fs, 0, .crashed)
    | some v =>
      let path := mp3PathOf v.id
      if path ∈ fs then
        let r := send_audio fs path v.title sendOk
        (r.1, 0, .cacheHit r.2)
      else
        let fs1 := if dlProduces then fs ++ [path] else fs
        let r := send_audio fs1 path v.title sendOk
        (r.1, 1, .fetched r.2)

/-! ## Interleaved selections (concurrency model for the cache claim)

The handler body has `await` suspension points; the one that matters for
duplicate downloads sits between the `os.path.exists` check and
`ydl.download` (the `await query.message.reply_text(...)` progress
message).  One selection of candidate `v` is therefore a two-phase thread:
an atomic segment ending at the cache check, and — on a miss — an atomic
segment performing the download and delivery.  Nothing in the source
serialises two such threads on the same id. -/

/-- Phase of one in-flight selection of a fixed candidate. -/
inductive SelPhase where
  /-- Before the handler ran. -/
  | start
  /-- Cache check missed; suspended at the progress message, download next. -/
  | awaitingDl
  /-- Handler finished. -/
  | done
deriving DecidableEq, Repr

/-- One atomic step of a selection thread for candidate `v`: from `start`,
perform the cache check (hit delivers and finishes, miss suspends before
the download); from `awaitingDl`, perform `ydl.download` (which produces
`{id}.mp3`) and the `send_audio` delivery.  Returns the file set, the
number of download invocations in this step, and the next phase. -/
def selStep (v : Video) (fs : List FName) : SelPhase → List FName × Nat × SelPhase
  | .start =>
    let path := mp3PathOf v.id
    if path ∈ fs then
      let r := send_audio fs path v.title true
      (r.1, 0, .done)
    else (fs, 0, .awaitingDl)
  | .awaitingDl =>
    let path := mp3PathOf v.id
    let r := send_audio (fs ++ [path]) path v.title true
    (r.1, 1, .done)
  | .done => (fs, 0, .done)

/-- Two selection threads for the same candidate, interleaved: system state. -/
structure SelSys where
  files : List FName
  fetches : Nat
  p0 : SelPhase
  p1 : SelPhase
deriving DecidableEq, Repr

/-- Run one atomic step of thread `0` (`false`) or `1` (`true`). -/
def sysStep (v : Video) (st : SelSys) (tid : Bool) : SelSys :=
  if tid then
    let r := selStep v st.files st.p1
    { st with files := r.1, fetches := st.fetches + r.2.1, p1 := r.2.2 }
  else
    let r := selStep v st.files st.p0
    { st with files := r.1, fetches := st.fetches + r.2.1, p0 := r.2.2 }

/-- Run a schedule (a list of thread ids) from a state. -/
def sysRun (v : Video) (st : SelSys) : List Bool → SelSys
  | [] => st
  | t :: rest => sysRun v (sysStep v st t) rest

/-- Both threads at `start`, empty download directory, no fetches yet. -/
def selInit : SelSys := { files := [], fetches := 0, p0 := .start, p1 := .start }

/-- Number of fetches a thread in this phase may still perform (for the
dedup bound). -/
def phaseCost : SelPhase → Nat
  | .done => 0
  | _ => 1

/-- A concrete candidate used by the concrete scenarios: id `abc`,
title `Song`. -/
def vSong : Video :=
  { id := ['a', 'b', 'c'], title := ['S', 'o', 'n', 'g'],
    channel := ['C', 'h'], duration := some 10 }

/-- A concrete raw search entry that passes every filter. -/
def rawOk : Option RawEntry :=
  some { id := some ['a', 'b', 'c'], title := ['S', 'o', 'n', 'g'],
         uploader := ['C', 'h'], duration := some 10, age_limit := 0 }

end MusicBot

namespace MelodyAI

/-! ## Mock music-generation HTTP service (`src/FastAPI.py`) -/

/-- The little-endian byte list of `v` on `n` bytes (the payload of a
successful Python `int.to_bytes(n, 'little')`).  Bytes are `Nat` values
below 256. -/
def leBytes : Nat → Nat → List Nat
  | 0, _ => []
  | k + 1, v => v % 256 :: leBytes k (v / 256)

/-- Python `int.to_bytes(n, 'little')`: raises `OverflowError` (here
`none`) when the value does not fit in `n` bytes. -/
def toBytesLE (n : Nat) (v : Nat) : Option (List Nat) :=
  if v < 256 ^ n then some (leBytes n v) else none

/-- Decode a little-endian byte list. -/
def fromLE (l : List Nat) : Nat :=
  l.foldr (fun b acc => b + 256 * acc) 0

/-- `b'RIFF'`. -/
def riffTag : List Nat := [82, 73, 70, 70]
/-- `b'WAVE'`. -/
def waveTag : List Nat := [87, 65, 86, 69]
/-- `b'fmt '`. -/
def fmtTag : List Nat := [102, 109, 116, 32]
/-- `b'data'`. -/
def dataTag : List Nat := [100, 97, 116, 97]

/-- `generate_mock_audio` from `src/FastAPI.py`: a 44-byte WAV header
(44100 Hz, 2 channels, 16 bits per sample) followed by an all-zero
payload of `num_samples * num_channels * bits_per_sample // 8` bytes.
Each header field goes through `int.to_bytes`, which raises on overflow;
the first field built is the RIFF chunk size `36 + subchunk2_size`. -/
def generate_mock_audio (duration : Nat) : Option (List Nat) :=
  let sample_rate := 44100
  let num_channels := 2
  let bits_per_sample := 16
  let num_samples := sample_rate * duration
  let byte_rate := sample_rate * num_channels * bits_per_sample / 8
  let block_align := num_channels * bits_per_sample / 8
  let subchunk2_size := num_samples * num_channels * bits_per_sample / 8
  (toBytesLE 4 (36 + subchunk2_size)).bind fun chunkSize =>
  (toBytesLE 4 16).bind fun fmtSize =>
  (toBytesLE 2 1).bind fun audioFmt =>
  (toBytesLE 2 num_channels).bind fun nch =>
  (toBytesLE 4 sample_rate).bind fun sr =>
  (toBytesLE 4 byte_rate).bind fun br =>
  (toBytesLE 2 block_align).bind fun ba =>
  (toBytesLE 2 bits_per_sample).bind fun bps =>
  (toBytesLE 4 subchunk2_size).bind fun s2 =>
  some (riffTag ++ chunkSize ++ waveTag ++ fmtTag ++ fmtSize ++ audioFmt ++
        nch ++ sr ++ br ++ ba ++ bps ++ dataTag ++ s2 ++
        List.replicate subchunk2_size 0)

/-- A `POST /generate` request body (`MusicRequest`).  `duration` is an
arbitrary integer (pydantic validates only the type). -/
structure MusicRequest where
  prompt : List Char
  style : List Char
  mood : List Char
  tempo : List Char
  instrument : List Char
  duration : Int
deriving DecidableEq, Repr

/-- A stored track, as kept in `generated_tracks`. -/
structure Track where
  title : List Char
  prompt : List Char
  duration : Int
deriving DecidableEq, Repr

/-- Service state: the `track_counter` global and the `generated_tracks`
map (track ids are the counter values used). -/
structure GenState where
  counter : Nat
  tracks : List (Nat × Track)
deriving DecidableEq, Repr

/-- The part of the HTTP response observable to the client: status code
and the `success` flag of the JSON body. -/
structure GenReply where
  status : Nat
  success : Bool
deriving DecidableEq, Repr

/-- `generate_title` from `src/FastAPI.py`, word-count logic only (the
`.title()` casing is presentation): at most the first 5 words; fewer than
3 words are joined as-is (or a fixed fallback when empty); otherwise the
first 3 words plus an ellipsis. -/
def generate_title (prompt : List Char) : List Char :=
  let words := ((String.mk prompt).splitOn " ").filter (fun w => w ≠ "") |>.map String.data
  let first5 := words.take 5
  if first5.length < 3 then
    if first5 = [] then
      ['A', 'I', ' ', 'T', 'r', 'a', 'c', 'k']
    else (first5.intersperse [' ']).flatten
  else ((first5.take 3).intersperse [' ']).flatten ++ ['.', '.', '.']

/-- `generate_music` from `src/FastAPI.py`.  The whole body sits in a
`try` whose `except Exception` returns a `success: false` `MusicResponse`
— an HTTP 200.  The `raise HTTPException(status_code=400, ...)` for a
duration outside `[5, 120]` is itself an `Exception`, so it is caught by
that handler and never reaches FastAPI's HTTP-error machinery; it happens
before `track_counter` is incremented or anything is stored.  On the
valid path the counter is incremented, audio is generated and the track is
stored.  (`generate_mock_audio` cannot overflow for durations in
`[5, 120]`; were it to raise, the counter would already be incremented —
modelled faithfully.) -/
def generate_music (st : GenState) (req : MusicRequest) : GenState × GenReply :=
  if req.duration < 5 || req.duration > 120 then
    (st, { status := 200, success := false })
  else
    let st1 : GenState := { st with counter := st.counter + 1 }
    match generate_mock_audio req.duration.toNat with
    | none => (st1, { status := 200, success := false })
    | some _audio =>
      let tr : Track := { title := generate_title req.prompt,
                          prompt := req.prompt, duration := req.duration }
      ({ st1 with tracks := st1.tracks ++ [(st.counter, tr)] },
       { status := 200, success := true })

end MelodyAI

namespace MusicBot

/-! ## Sanitizer lemmas -/

theorem noAdjWS_cons {c : Char} {l : List Char} (h : noAdjWS (c :: l) = true) :
    noAdjWS l = true := by
  cases l with
  | nil => rfl
  | cons d rest =>
    simp only [noAdjWS, Bool.and_eq_true] at h
    exact h.2

theorem collapseWS_head : ∀ (l : List Char) (d : Char),
    (collapseWS (d :: l)).head? = some (if isPySpace d then ' ' else d)
  | [], d => by by_cases h : isPySpace d <;> simp [collapseWS, h]
  | e :: rest, d => by
    by_cases hd : isPySpace d <;> by_cases he : isPySpace e <;>
      simp [collapseWS, hd, he, collapseWS_head rest e]

theorem mem_collapseWS : ∀ (l : List Char) (c : Char), c ∈ collapseWS l →
    c = ' ' ∨ (c ∈ l ∧ isPySpace c = false)
  | [], c, h => by simp [collapseWS] at h
  | [d], c, h => by
    by_cases hd : isPySpace d <;> simp [collapseWS, hd] at h
    · exact Or.inl h
    · subst h
      exact Or.inr ⟨List.mem_singleton_self _, by simpa using hd⟩
  | d :: e :: rest, c, h => by
    by_cases hb : isPySpace d && isPySpace e
    · rw [show collapseWS (d :: e :: rest) = collapseWS (e :: rest) from by
        simp [collapseWS, hb]] at h
      rcases mem_collapseWS (e :: rest) c h with h1 | ⟨h1, h2⟩
      · exact Or.inl h1
      · exact Or.inr ⟨List.mem_cons_of_mem d h1, h2⟩
    · rw [show collapseWS (d :: e :: rest)
          = (if isPySpace d then ' ' else d) :: collapseWS (e :: rest) from by
        simp [collapseWS, hb]] at h
      rcases List.mem_cons.mp h with rfl | h1
      · by_cases hd : isPySpace d
        · left
          simp [hd]
        · right
          constructor
          · simp [hd]
          · simp [hd]
      · rcases mem_collapseWS (e :: rest) c h1 with h2 | ⟨h2, h3⟩
        · exact Or.inl h2
        · exact Or.inr ⟨List.mem_cons_of_mem d h2, h3⟩

theorem noAdjWS_collapseWS : ∀ l : List Char, noAdjWS (collapseWS l) = true
  | [] => rfl
  | [c] => by by_cases h : isPySpace c <;> simp [collapseWS, h, noAdjWS]
  | d :: e :: rest => by
    have ih := noAdjWS_collapseWS (e :: rest)
    by_cases hb : isPySpace d && isPySpace e
    · rw [show collapseWS (d :: e :: rest) = collapseWS (e :: rest) from by
        simp [collapseWS, hb]]
      exact ih
    · rw [show collapseWS (d :: e :: rest)
          = (if isPySpace d then ' ' else d) :: collapseWS (e :: rest) from by
        simp [collapseWS, hb]]
      cases hm : collapseWS (e :: rest) with
      | nil => simp [noAdjWS]
      | cons y m =>
        have hy : y = if isPySpace e then ' ' else e := by
          have hh := collapseWS_head rest e
          rw [hm] at hh
          simpa using hh
        rw [hm] at ih
        simp only [noAdjWS, Bool.and_eq_true]
        refine ⟨?_, ih⟩
        by_cases hd : isPySpace d
        · have he : isPySpace e = false := by
            cases hws : isPySpace e
            · rfl
            · exact absurd (by simp [hd, hws]) hb
          subst hy
          simp [hd, he]
        · subst hy
          simp [hd]

theorem head_dropWhile (p : Char → Bool) : ∀ (l : List Char) (c : Char),
    (l.dropWhile p).head? = some c → p c = false
  | [], c, h => by simp [List.dropWhile] at h
  | d :: rest, c, h => by
    by_cases hd : p d
    · exact head_dropWhile p rest c (by simpa [List.dropWhile_cons, hd] using h)
    · simp [List.dropWhile_cons, hd] at h
      subst h
      simpa using hd

theorem noAdjWS_dropWhile (p : Char → Bool) : ∀ (l : List Char),
    noAdjWS l = true → noAdjWS (l.dropWhile p) = true
  | [], h => h
  | c :: rest, h => by
    by_cases hc : p c
    · rw [List.dropWhile_cons_of_pos hc]
      exact noAdjWS_dropWhile p rest (noAdjWS_cons h)
    · rwa [List.dropWhile_cons_of_neg hc]

theorem dropTrailingWS_shape (c : Char) (rest : List Char) :
    dropTrailingWS (c :: rest) = [] ∨
    dropTrailingWS (c :: rest) = c :: dropTrailingWS rest := by
  simp only [dropTrailingWS]
  split
  · exact Or.inl rfl
  · exact Or.inr rfl

theorem mem_dropTrailingWS : ∀ (l : List Char) (c : Char),
    c ∈ dropTrailingWS l → c ∈ l
  | [], c, h => by simp [dropTrailingWS] at h
  | d :: rest, c, h => by
    rcases dropTrailingWS_shape d rest with hs | hs <;> rw [hs] at h
    · simp at h
    · rcases List.mem_cons.mp h with rfl | h1
      · exact List.mem_cons_self c rest
      · exact List.mem_cons_of_mem d (mem_dropTrailingWS rest c h1)

theorem head_dropTrailingWS : ∀ (l : List Char) (c : Char),
    (dropTrailingWS l).head? = some c → l.head? = some c
  | [], c, h => by simp [dropTrailingWS] at h
  | d :: rest, c, h => by
    rcases dropTrailingWS_shape d rest with hs | hs <;> rw [hs] at h
    · simp at h
    · simp only [List.head?_cons, Option.some.injEq] at h
      simp [h]

theorem getLast_dropTrailingWS : ∀ (l : List Char) (c : Char),
    (dropTrailingWS l).getLast? = some c → isPySpace c = false
  | [], c, h => by simp [dropTrailingWS] at h
  | d :: rest, c, h => by
    rcases dropTrailingWS_shape d rest with hs | hs <;> rw [hs] at h
    · simp at h
    · cases hm : dropTrailingWS rest with
      | nil =>
        rw [hm] at h
        simp at h
        rw [← h]
        by_cases hw : isPySpace d
        · exfalso
          rw [hm] at hs
          simp [dropTrailingWS, hm, hw] at hs
        · simpa using hw
      | cons e m =>
        rw [hm, List.getLast?_cons_cons] at h
        exact getLast_dropTrailingWS rest c (by rw [hm]; exact h)

theorem noAdjWS_dropTrailingWS : ∀ (l : List Char),
    noAdjWS l = true → noAdjWS (dropTrailingWS l) = true
  | [], h => h
  | d :: rest, h => by
    rcases dropTrailingWS_shape d rest with hs | hs <;> rw [hs]
    · rfl
    · have ih := noAdjWS_dropTrailingWS rest (noAdjWS_cons h)
      cases hm : dropTrailingWS rest with
      | nil => rfl
      | cons e m =>
        have he : rest.head? = some e :=
          head_dropTrailingWS rest e (by rw [hm]; rfl)
        cases rest with
        | nil => simp at he
        | cons e0 rest0 =>
          simp only [List.head?_cons, Option.some.injEq] at he
          subst he
          rw [hm] at ih
          simp only [noAdjWS, Bool.and_eq_true]
          refine ⟨?_, ih⟩
          simp only [noAdjWS, Bool.and_eq_true] at h
          exact h.1

theorem noAdjWS_take : ∀ (n : Nat) (l : List Char),
    noAdjWS l = true → noAdjWS (l.take n) = true
  | 0, _, _ => rfl
  | _ + 1, [], _ => rfl
  | n + 1, [c], _ => by cases n <;> rfl
  | n + 1, c :: d :: rest, h => by
    cases n with
    | zero => rfl
    | succ m =>
      have ih := noAdjWS_take (m + 1) (d :: rest) (noAdjWS_cons h)
      rw [List.take_succ_cons, List.take_succ_cons]
      rw [List.take_succ_cons] at ih
      simp only [noAdjWS, Bool.and_eq_true] at h ⊢
      exact ⟨h.1, ih⟩

theorem head_take {l : List Char} {n : Nat} {c : Char}
    (h : (l.take (n + 1)).head? = some c) : l.head? = some c := by
  cases l with
  | nil => simp at h
  | cons d rest => simpa using h

theorem mem_sublist {c : Char} {l₁ l₂ : List Char} (s : List.Sublist l₁ l₂)
    (h : c ∈ l₁) : c ∈ l₂ :=
  s.subset h

theorem sanitizeCore_props (l : List Char) :
    (∀ c ∈ sanitizeCore l, isBadChar c = false) ∧
    noAdjWS (sanitizeCore l) = true ∧
    (∀ c ∈ sanitizeCore l, isPySpace c = true → c = ' ') ∧
    (∀ c, (sanitizeCore l).head? = some c → isPySpace c = false) ∧
    (∀ c, (sanitizeCore l).getLast? = some c → isPySpace c = false) := by
  have hmem : ∀ c ∈ sanitizeCore l,
      c = ' ' ∨ (c ∈ l.filter (fun c => !isBadChar c) ∧ isPySpace c = false) := by
    intro c hc
    have h1 := mem_dropTrailingWS _ c hc
    have h2 : c ∈ collapseWS (l.filter (fun c => !isBadChar c)) :=
      mem_sublist (List.dropWhile_sublist _) h1
    exact mem_collapseWS _ c h2
  refine ⟨?_, ?_, ?_, ?_, ?_⟩
  · intro c hc
    rcases hmem c hc with rfl | ⟨h1, _⟩
    · rfl
    · have := (List.mem_filter.mp h1).2
      simpa using this
  · exact noAdjWS_dropTrailingWS _
      (noAdjWS_dropWhile _ _ (noAdjWS_collapseWS _))
  · intro c hc hws
    rcases hmem c hc with rfl | ⟨_, h2⟩
    · rfl
    · rw [hws] at h2
      exact absurd h2 (by simp)
  · intro c hc
    have h1 := head_dropTrailingWS _ c hc
    exact head_dropWhile _ _ c h1
  · intro c hc
    exact getLast_dropTrailingWS _ c hc

/-- C5 (amended): for every input string, the sanitizer's output contains
none of `\ / : * ? " < > |`, has no two adjacent whitespace characters
and every whitespace character in it is a plain space, has no leading
whitespace, is at most 80 characters long, and equals the placeholder
`audio` exactly when the filtered, collapsed, trimmed result is empty;
the output has no trailing whitespace whenever that trimmed result is at
most 80 characters long (truncation of a longer result may leave a single
trailing space — see the counterexample).  The function is a total Lean
function, hence pure and total. -/
theorem c5_amended (l : List Char) :
    (∀ c ∈ sanitizeL l, isBadChar c = false) ∧
    noAdjWS (sanitizeL l) = true ∧
    (∀ c ∈ sanitizeL l, isPySpace c = true → c = ' ') ∧
    (∀ c, (sanitizeL l).head? = some c → isPySpace c = false) ∧
    (sanitizeL l).length ≤ 80 ∧
    (sanitizeCore l = [] → sanitizeL l = ['a', 'u', 'd', 'i', 'o']) ∧
    ((sanitizeCore l).length ≤ 80 →
      ∀ c, (sanitizeL l).getLast? = some c → isPySpace c = false) := by
  obtain ⟨hbad, hadj, hws, hhead, hlast⟩ := sanitizeCore_props l
  by_cases h : sanitizeCore l = []
  · have hout : sanitizeL l = ['a', 'u', 'd', 'i', 'o'] := by
      simp only [sanitizeL]
      rw [if_pos h]
    rw [hout]
    exact ⟨by decide, by decide, by decide, by decide, by decide,
      fun _ => rfl, fun _ => by decide⟩
  · have hout : sanitizeL l = (sanitizeCore l).take 80 := by
      simp only [sanitizeL]
      rw [if_neg h]
    rw [hout]
    refine ⟨?_, ?_, ?_, ?_, ?_, ?_, ?_⟩
    · intro c hc
      exact hbad c (List.take_subset 80 _ hc)
    · exact noAdjWS_take 80 _ hadj
    · intro c hc
      exact hws c (List.take_subset 80 _ hc)
    · intro c hc
      exact hhead c (head_take hc)
    · rw [List.length_take]
      omega
    · intro h0
      exact absurd h0 h
    · intro hlen c hc
      rw [List.take_of_length_le hlen] at hc
      exact hlast c hc

/-- Witness for C5 at the concrete input `"a b"`, discharging the
membership and length hypotheses at concrete characters. -/
theorem c5_witness :
    isBadChar 'a' = false ∧ noAdjWS (sanitizeL ['a', ' ', 'b']) = true ∧
    (∀ c, (sanitizeL ['a', ' ', 'b']).head? = some c → isPySpace c = false) ∧
    (sanitizeL ['a', ' ', 'b']).length ≤ 80 ∧
    ((sanitizeCore ['a', ' ', 'b']).length ≤ 80 →
      ∀ c, (sanitizeL ['a', ' ', 'b']).getLast? = some c → isPySpace c = false) :=
  ⟨(c5_amended ['a', ' ', 'b']).1 'a' (by decide),
   (c5_amended ['a', ' ', 'b']).2.1,
   (c5_amended ['a', ' ', 'b']).2.2.2.1,
   (c5_amended ['a', ' ', 'b']).2.2.2.2.1,
   (c5_amended ['a', ' ', 'b']).2.2.2.2.2.2⟩

set_option maxRecDepth 4000 in
/-- C5 counterexample: on the 81-character input of 79 `a`s, a space and
a `b`, the sanitizer truncates right after the space, so the output ends
in a whitespace character — the claim's "no trailing whitespace" conjunct
is false for this input. -/
theorem c5_counterexample :
    (sanitizeL (List.replicate 79 'a' ++ [' ', 'b'])).getLast? = some ' ' ∧
    isPySpace ' ' = true := by
  constructor
  · decide
  · decide

/-- Characters of the Khmer or CJK ranges are not in the sanitizer's
denylist (the denylist is ASCII). -/
theorem nonLatin_not_bad {c : Char} (h : nonLatinScript c = true) :
    isBadChar c = false := by
  cases hb : isBadChar c
  · rfl
  · exfalso
    simp only [isBadChar, Bool.or_eq_true, decide_eq_true_eq] at hb
    rcases hb with ((((((((rfl | rfl) | rfl) | rfl) | rfl) | rfl) | rfl) | rfl) | rfl) <;>
      exact absurd h (by decide)

/-- Characters of the Khmer or CJK ranges are not whitespace. -/
theorem nonLatin_not_ws {c : Char} (h : nonLatinScript c = true) :
    isPySpace c = false := by
  cases hb : isPySpace c
  · rfl
  · exfalso
    simp only [isPySpace, Bool.or_eq_true, decide_eq_true_eq] at hb
    rcases hb with (((((rfl | rfl) | rfl) | rfl) | rfl) | rfl) <;>
      exact absurd h (by decide)

theorem collapseWS_eq_self : ∀ (l : List Char),
    (∀ c ∈ l, isPySpace c = false) → collapseWS l = l
  | [], _ => rfl
  | [c], h => by simp [collapseWS, h c (List.mem_singleton_self c)]
  | c :: d :: rest, h => by
    have hc := h c (by simp)
    have ih := collapseWS_eq_self (d :: rest)
      (fun x hx => h x (List.mem_cons_of_mem c hx))
    simp [collapseWS, hc, ih]

theorem dropWhile_eq_self_of (p : Char → Bool) (l : List Char)
    (h : ∀ c ∈ l, p c = false) : l.dropWhile p = l := by
  cases l with
  | nil => rfl
  | cons c rest =>
    exact List.dropWhile_cons_of_neg (by simp [h c (by simp)])

theorem dropTrailingWS_eq_self : ∀ (l : List Char),
    (∀ c ∈ l, isPySpace c = false) → dropTrailingWS l = l
  | [], _ => rfl
  | c :: rest, h => by
    have ih := dropTrailingWS_eq_self rest
      (fun x hx => h x (List.mem_cons_of_mem c hx))
    have hc := h c (by simp)
    simp [dropTrailingWS, ih, hc]

/-- C6: on every nonempty string consisting only of non-Latin script
characters (Khmer or CJK ranges), the sanitizer acts as the identity up
to the 80-character truncation: no character is removed or altered, and
trimming does nothing (such characters are not whitespace). -/
theorem c6_nonLatin_identity (l : List Char) (hne : l ≠ [])
    (h : ∀ c ∈ l, nonLatinScript c = true) : sanitizeL l = l.take 80 := by
  have hws : ∀ c ∈ l, isPySpace c = false := fun c hc => nonLatin_not_ws (h c hc)
  have h1 : l.filter (fun c => !isBadChar c) = l :=
    List.filter_eq_self.mpr (fun c hc => by simp [nonLatin_not_bad (h c hc)])
  have hcore : sanitizeCore l = l := by
    unfold sanitizeCore stripWS
    rw [h1, collapseWS_eq_self l hws, dropWhile_eq_self_of _ l hws,
        dropTrailingWS_eq_self l hws]
  simp only [sanitizeL]
  rw [hcore, if_neg hne]

/-- Witness for C6 at a concrete CJK string. -/
theorem c6_witness :
    (['中', '文'] : List Char) ≠ [] ∧
    (∀ c ∈ (['中', '文'] : List Char), nonLatinScript c = true) ∧
    sanitizeL ['中', '文'] = (['中', '文'] : List Char).take 80 :=
  ⟨by decide, by decide, c6_nonLatin_identity _ (by decide) (by decide)⟩

/-! ## Search filtering (C7) -/

theorem collectResults_eq : ∀ (raw : List (Option RawEntry)) (cnt : Nat),
    cnt < 10 →
    collectResults raw cnt = (raw.filterMap entryVideo?).take (10 - cnt)
  | [], cnt, _ => by simp [collectResults]
  | none :: rest, cnt, h => by
    rw [show collectResults (none :: rest) cnt = collectResults rest cnt from rfl,
        List.filterMap_cons_none (by rfl)]
    exact collectResults_eq rest cnt h
  | some e :: rest, cnt, h => by
    by_cases ha : 18 ≤ e.age_limit
    · rw [show collectResults (some e :: rest) cnt = collectResults rest cnt from by
          simp [collectResults, ha],
        List.filterMap_cons_none (by simp [entryVideo?, ha])]
      exact collectResults_eq rest cnt h
    · cases hid : e.id with
      | none =>
        rw [show collectResults (some e :: rest) cnt = collectResults rest cnt from by
            simp [collectResults, ha, hid],
          List.filterMap_cons_none (by simp [entryVideo?, ha, hid])]
        exact collectResults_eq rest cnt h
      | some vid =>
        rw [show collectResults (some e :: rest) cnt =
            (if 10 ≤ cnt + 1 then [mkVideo vid e]
             else mkVideo vid e :: collectResults rest (cnt + 1)) from by
          simp [collectResults, ha, hid],
          List.filterMap_cons_some (by simp [entryVideo?, ha, hid] : _ = some (mkVideo vid e))]
        by_cases hc : 10 ≤ cnt + 1
        · rw [if_pos hc, show 10 - cnt = 1 from by omega]
          rfl
        · rw [if_neg hc, show 10 - cnt = (10 - (cnt + 1)) + 1 from by omega,
            List.take_succ_cons, collectResults_eq rest (cnt + 1) (by omega)]

/-- C7: the surfaced candidate list is exactly the order-preserving
filtered prefix of the raw result list — the first (at most) 10 entries
that survive the filter dropping `None` entries, entries with
`age_limit >= 18`, and entries without a source id — so it has at most 10
entries, preserves the index's relevance order, and every surfaced
candidate stems from a raw entry that has a source id and is not
age-restricted. -/
theorem c7_search_filter (raw : List (Option RawEntry)) :
    collectResults raw 0 = (raw.filterMap entryVideo?).take 10 ∧
    (collectResults raw 0).length ≤ 10 ∧
    (∀ v ∈ collectResults raw 0, ∃ e : RawEntry, some e ∈ raw ∧
      e.age_limit < 18 ∧ e.id = some v.id) := by
  have heq := collectResults_eq raw 0 (by omega)
  rw [Nat.sub_zero] at heq
  refine ⟨heq, ?_, ?_⟩
  · rw [heq, List.length_take]
    omega
  · intro v hv
    rw [heq] at hv
    have hv2 : v ∈ raw.filterMap entryVideo? := List.take_subset 10 _ hv
    obtain ⟨oe, hoe, hval⟩ := List.mem_filterMap.mp hv2
    cases oe with
    | none => simp [entryVideo?] at hval
    | some e =>
      by_cases ha : 18 ≤ e.age_limit
      · simp [entryVideo?, ha] at hval
      · cases hid : e.id with
        | none => simp [entryVideo?, ha, hid] at hval
        | some vid =>
          simp [entryVideo?, ha, hid] at hval
          refine ⟨e, hoe, by omega, ?_⟩
          rw [hid, ← hval]
          rfl

/-- Witness for C7 at a concrete raw list, with the membership hypothesis
discharged at the concrete surfaced candidate. -/
theorem c7_witness :
    collectResults [rawOk] 0 =
      (([rawOk] : List (Option RawEntry)).filterMap entryVideo?).take 10 ∧
    (∃ e : RawEntry, some e ∈ [rawOk] ∧ e.age_limit < 18 ∧ e.id = some vSong.id) :=
  ⟨(c7_search_filter [rawOk]).1,
   (c7_search_filter [rawOk]).2.2 vSong (by decide)⟩

/-! ## Session replacement (C4) -/

/-- C4 counterexample: a search whose raw entry list comes back empty
completes with the "No results found." message but leaves the prior
session untouched — the stored candidate list is the old one, not the new
(empty) filtered result list, and the prior candidate is still resolvable
at index 0.  This refutes "every new search replaces that conversation's
prior session / no candidate from the prior session remains resolvable". -/
theorem c4_counterexample :
    search_and_show_results (some [vSong]) ['a', 'b'] [] =
      (some [vSong], SearchOutcome.noResults) ∧
    collectResults [] 0 = [] ∧
    (some [vSong] : Option (List Video)) ≠ some [] ∧
    [vSong].get? 0 = some vSong := by
  refine ⟨by decide, rfl, by decide, rfl⟩

/-- C4 (amended): a search replaces the prior session exactly when the
trimmed query passes the length check and the raw entry list is nonempty;
the stored list is then exactly the new search's filtered result list
(even when empty after filtering).  A search whose raw entry list is
empty leaves the prior session in place (its candidates stay resolvable). -/
theorem c4_amended (prev : Option (List Video)) (text : List Char)
    (raw : List (Option RawEntry)) :
    (2 ≤ (stripWS text).length → raw ≠ [] →
      (search_and_show_results prev text raw).1 = some (collectResults raw 0)) ∧
    (raw = [] → (search_and_show_results prev text raw).1 = prev) := by
  constructor
  · intro hq hraw
    simp only [search_and_show_results]
    rw [if_neg (by omega), if_neg hraw]
    split <;> rfl
  · intro hraw
    subst hraw
    simp only [search_and_show_results]
    split <;> rfl

/-- Witness for C4 at concrete inputs. -/
theorem c4_witness :
    2 ≤ (stripWS ['a', 'b']).length ∧
    ([rawOk] : List (Option RawEntry)) ≠ [] ∧
    (search_and_show_results (some [vSong]) ['a', 'b'] [rawOk]).1 =
      some (collectResults [rawOk] 0) :=
  ⟨by decide, by decide,
   (c4_amended (some [vSong]) ['a', 'b'] [rawOk]).1 (by decide) (by decide)⟩

/-! ## Selection error handling (C2) -/

/-- C2 counterexample: a selection event arriving when no session was
ever stored does not fail cleanly — `context.user_data['search_results']`
raises `KeyError`, modelled by the `crashed` outcome: the exception
escapes the handler and no message of any kind is surfaced to the user
(no "please search again", no error text). -/
theorem c2_counterexample :
    button_callback [] none 0 true true = ([], 0, CbOutcome.crashed) := rfl

/-- C2 (amended): if no session exists the handler raises an uncaught
`KeyError`, and if the index is outside the stored list it raises an
uncaught `IndexError`; in both cases no candidate is resolved from stale
or out-of-range data and no download starts, but the failure is not
surfaced to the user — the handler crashes instead of sending a
"please search again" message. -/
theorem c2_amended (fs : List FName) (idx : Nat) (dlP sOk : Bool) :
    button_callback fs none idx dlP sOk = (fs, 0, CbOutcome.crashed) ∧
    (∀ vids : List Video, vids.length ≤ idx →
      button_callback fs (some vids) idx dlP sOk = (fs, 0, CbOutcome.crashed)) := by
  constructor
  · rfl
  · intro vids h
    simp only [button_callback]
    rw [List.get?_eq_none.mpr h]

/-- Witness for C2 at concrete inputs (no session; index 5 against a
one-element session). -/
theorem c2_witness :
    button_callback [] none 0 true true = ([], 0, CbOutcome.crashed) ∧
    button_callback [] (some [vSong]) 5 true true = ([], 0, CbOutcome.crashed) :=
  ⟨(c2_amended [] 0 true true).1, (c2_amended [] 5 true true).2 [vSong] (by decide)⟩

/-! ## Cache-hit on re-selection (C1) -/

/-- C1 (code bug): the cache is keyed by `{video_id}.mp3`, but delivery
renames the artifact to `{sanitized_title}.mp3`.  First selection of the
candidate (id `abc`, title `Song`): download invoked once, delivered as
`Song.mp3`.  Second selection of the same candidate: the
`os.path.exists('downloads/abc.mp3')` check misses (the file was renamed
away), so `ydl.download` is invoked again — download count 1, not a cache
hit — and the delivered path even differs (`abc.mp3`, because the rename
now hits an existing `Song.mp3` and falls back).  This contradicts the
claimed re-selection cache hit and the source's own
"Check if already downloaded" intent. -/
theorem c1_codeBug :
    button_callback [] (some [vSong]) 0 true true =
      ([sanitizeL vSong.title ++ mp3ext], 1,
        CbOutcome.fetched (SendOutcome.sentAudio (sanitizeL vSong.title ++ mp3ext))) ∧
    button_callback [sanitizeL vSong.title ++ mp3ext] (some [vSong]) 0 true true =
      ([sanitizeL vSong.title ++ mp3ext, mp3PathOf vSong.id], 1,
        CbOutcome.fetched (SendOutcome.sentAudio (mp3PathOf vSong.id))) := by
  constructor
  · decide
  · decide

/-! ## Delivery-failure notification (C8) -/

/-- C8 counterexample: when the artifact file is missing — exactly what
happens when the download failed silently under `ignoreerrors: True` —
`send_audio` returns without sending anything: a delivery failure mode in
which the user receives no message at all (and `button_callback` then
even deletes the progress message).  This refutes "no delivery failure
mode ends with the user receiving no message at all". -/
theorem c8_counterexample :
    send_audio [] (mp3PathOf vSong.id) vSong.title true = ([], SendOutcome.silent) ∧
    button_callback [] (some [vSong]) 0 false true =
      ([], 1, CbOutcome.fetched SendOutcome.silent) := by
  constructor
  · decide
  · decide

/-- C8 (amended): when the artifact file exists and sending the audio
raises, the exception is caught and the `"❌ Failed to send MP3."` text is
sent (the handler does not crash); but when the artifact file is missing,
`send_audio` returns silently for every transport behaviour, and the user
receives no message. -/
theorem c8_amended (fs : List FName) (path : FName) (title : List Char) :
    (path ∈ fs → (send_audio fs path title false).2 = SendOutcome.errorText) ∧
    (path ∉ fs → ∀ sOk, (send_audio fs path title sOk).2 = SendOutcome.silent) := by
  constructor
  · intro h
    simp [send_audio, h]
  · intro h sOk
    simp [send_audio, h]

/-- Witness for C8 at concrete inputs (file present + send failure; file
absent). -/
theorem c8_witness :
    mp3PathOf vSong.id ∈ [mp3PathOf vSong.id] ∧
    (send_audio [mp3PathOf vSong.id] (mp3PathOf vSong.id) vSong.title false).2 =
      SendOutcome.errorText ∧
    mp3PathOf vSong.id ∉ ([] : List FName) ∧
    (send_audio [] (mp3PathOf vSong.id) vSong.title true).2 = SendOutcome.silent :=
  ⟨by decide,
   (c8_amended [mp3PathOf vSong.id] (mp3PathOf vSong.id) vSong.title).1 (by decide),
   by decide,
   (c8_amended [] (mp3PathOf vSong.id) vSong.title).2 (by decide) true⟩

/-! ## Concurrent-selection dedup (C3) -/

theorem sysStep_cost (v : Video) (st : SelSys) (tid : Bool) :
    (sysStep v st tid).fetches + phaseCost (sysStep v st tid).p0 +
      phaseCost (sysStep v st tid).p1 ≤
    st.fetches + phaseCost st.p0 + phaseCost st.p1 := by
  cases tid <;> cases h0 : st.p0 <;> cases h1 : st.p1 <;>
    simp [sysStep, selStep, phaseCost, h0, h1] <;>
    split_ifs <;> simp [phaseCost]

theorem sysRun_cost (v : Video) : ∀ (sched : List Bool) (st : SelSys),
    (sysRun v st sched).fetches + phaseCost (sysRun v st sched).p0 +
      phaseCost (sysRun v st sched).p1 ≤
    st.fetches + phaseCost st.p0 + phaseCost st.p1
  | [], _ => le_refl _
  | t :: rest, st =>
    le_trans (sysRun_cost v rest (sysStep v st t)) (sysStep_cost v st t)

/-- C3 counterexample: two concurrent selections of the same candidate,
interleaved at the suspension point between the cache check and the
download (both run the `os.path.exists` check before either downloads),
invoke `ydl.download` twice — not exactly once as claimed. -/
theorem c3_counterexample :
    (sysRun vSong selInit [false, true, false, true]).fetches = 2 ∧
    (2 : Nat) ≠ 1 := by
  constructor
  · decide
  · decide

/-- C3 (amended): nothing in the code deduplicates concurrent fetches of
the same source id — each concurrent caller can invoke the download once,
so two concurrent selections perform at most two downloads, and the
interleaving in which both pass the existence check before either
downloads performs exactly two.  (Even serialised re-selection downloads
again, because delivery renames the artifact — see C1.) -/
theorem c3_amended :
    (∀ (v : Video) (sched : List Bool), (sysRun v selInit sched).fetches ≤ 2) ∧
    (sysRun vSong selInit [false, true, false, true]).fetches = 2 := by
  constructor
  · intro v sched
    have h := sysRun_cost v sched selInit
    have h2 : selInit.fetches + phaseCost selInit.p0 + phaseCost selInit.p1 = 2 := rfl
    rw [h2] at h
    omega
  · decide

end MusicBot

namespace MelodyAI

/-! ## Duration validation (C9) -/

/-- C9 (code bug): a `POST /generate` request with duration outside
`[5, 120]` is NOT answered with an HTTP 400 client error: the
`raise HTTPException(status_code=400, ...)` sits inside the handler's
`try`, and the blanket `except Exception` catches it and returns an
ordinary `MusicResponse` — HTTP 200 with `success: false`.  The claim's
other half does hold and is part of this statement: the rejection happens
before `track_counter` is incremented or anything is stored, so the
service state is unchanged (no track created). -/
theorem c9_codeBug (st : GenState) (req : MusicRequest)
    (h : req.duration < 5 ∨ 120 < req.duration) :
    generate_music st req = (st, { status := 200, success := false }) := by
  simp only [generate_music]
  split
  · rfl
  · rename_i hcond
    simp only [Bool.or_eq_true, decide_eq_true_eq, not_or] at hcond
    exfalso
    rcases hcond with ⟨h1, h2⟩
    omega

/-- Witness for C9 at the failing input duration = 3. -/
theorem c9_witness :
    ((3 : Int) < 5 ∨ (120 : Int) < 3) ∧
    generate_music { counter := 1, tracks := [] }
      { prompt := ['x'], style := [], mood := [], tempo := [],
        instrument := [], duration := 3 } =
      ({ counter := 1, tracks := [] }, { status := 200, success := false }) :=
  ⟨Or.inl (by decide), c9_codeBug _ _ (Or.inl (by decide))⟩

/-! ## Mock WAV layout (C10) -/

theorem toBytesLE_of_lt {n v : Nat} (h : v < 256 ^ n) :
    toBytesLE n v = some (leBytes n v) := by
  simp [toBytesLE, h]

theorem fromLE_leBytes : ∀ (n v : Nat), v < 256 ^ n → fromLE (leBytes n v) = v
  | 0, v, h => by
    simp only [pow_zero] at h
    interval_cases v
    rfl
  | n + 1, v, h => by
    have hv : v / 256 < 256 ^ n := by
      rw [pow_succ, Nat.mul_comm] at h
      exact Nat.div_lt_of_lt_mul h
    have ih := fromLE_leBytes n (v / 256) hv
    simp only [leBytes, fromLE, List.foldr] at ih ⊢
    rw [ih]
    omega

/-- C10 counterexample: at duration 24348 the RIFF chunk-size value
`36 + 176400 * 24348` no longer fits in 4 bytes, so Python's
`int.to_bytes(4, 'little')` raises `OverflowError` and no byte string is
returned at all — refuting the claim's "for every non-negative integer
duration d". -/
theorem c10_counterexample : generate_mock_audio 24348 = none := by
  rfl

set_option maxHeartbeats 1000000 in
/-- C10 (amended): for every duration `d ≤ 24347` (so that
`36 + 176400*d` fits in the 4-byte RIFF chunk-size field), the mock
generator returns a byte string of exactly `44 + 176400*d` bytes in which
the little-endian RIFF chunk-size field (bytes 4..7) decodes to
`36 + 176400*d`, the data subchunk-size field (bytes 40..43) decodes to
`176400*d`, and the bytes after the 44-byte header are exactly the
all-zero payload of length `176400*d`; for larger durations the generator
raises instead of returning. -/
theorem c10_amended (d : Nat) (h : d ≤ 24347) :
    ∃ bs, generate_mock_audio d = some bs ∧
      bs.length = 44 + 176400 * d ∧
      fromLE ((bs.drop 4).take 4) = 36 + 176400 * d ∧
      fromLE ((bs.drop 40).take 4) = 176400 * d ∧
      bs.drop 44 = List.replicate (176400 * d) 0 := by
  have hs : 44100 * d * 2 * 16 / 8 = 176400 * d := by omega
  have hnum : (256 : Nat) ^ 4 = 4294967296 := by norm_num
  have hlt : 36 + 176400 * d < 4294967296 := by
    have := Nat.mul_le_mul_left 176400 h
    omega
  refine ⟨riffTag ++ leBytes 4 (36 + 176400 * d) ++ waveTag ++ fmtTag ++
      leBytes 4 16 ++ leBytes 2 1 ++ leBytes 2 2 ++ leBytes 4 44100 ++
      leBytes 4 (44100 * 2 * 16 / 8) ++ leBytes 2 (2 * 16 / 8) ++
      leBytes 2 16 ++ dataTag ++ leBytes 4 (176400 * d) ++
      List.replicate (176400 * d) 0, ?_, ?_, ?_, ?_, ?_⟩
  · simp only [generate_mock_audio, hs]
    rw [toBytesLE_of_lt (show 36 + 176400 * d < 256 ^ 4 by rw [hnum]; omega),
        toBytesLE_of_lt (show (16 : Nat) < 256 ^ 4 by norm_num),
        toBytesLE_of_lt (show (1 : Nat) < 256 ^ 2 by norm_num),
        toBytesLE_of_lt (show (2 : Nat) < 256 ^ 2 by norm_num),
        toBytesLE_of_lt (show (44100 : Nat) < 256 ^ 4 by norm_num),
        toBytesLE_of_lt (show (44100 * 2 * 16 / 8 : Nat) < 256 ^ 4 by norm_num),
        toBytesLE_of_lt (show (2 * 16 / 8 : Nat) < 256 ^ 2 by norm_num),
        toBytesLE_of_lt (show (16 : Nat) < 256 ^ 2 by norm_num),
        toBytesLE_of_lt (show 176400 * d < 256 ^ 4 by rw [hnum]; omega)]
    simp only [Option.some_bind]
  · have e : (riffTag ++ leBytes 4 (36 + 176400 * d) ++ waveTag ++ fmtTag ++
        leBytes 4 16 ++ leBytes 2 1 ++ leBytes 2 2 ++ leBytes 4 44100 ++
        leBytes 4 (44100 * 2 * 16 / 8) ++ leBytes 2 (2 * 16 / 8) ++
        leBytes 2 16 ++ dataTag ++ leBytes 4 (176400 * d) ++
        List.replicate (176400 * d) 0).length =
      (List.replicate (176400 * d) 0).length + 44 := rfl
    rw [e, List.length_replicate]
    omega
  · have e : ((riffTag ++ leBytes 4 (36 + 176400 * d) ++ waveTag ++ fmtTag ++
        leBytes 4 16 ++ leBytes 2 1 ++ leBytes 2 2 ++ leBytes 4 44100 ++
        leBytes 4 (44100 * 2 * 16 / 8) ++ leBytes 2 (2 * 16 / 8) ++
        leBytes 2 16 ++ dataTag ++ leBytes 4 (176400 * d) ++
        List.replicate (176400 * d) 0).drop 4).take 4 =
      leBytes 4 (36 + 176400 * d) := rfl
    rw [e, fromLE_leBytes 4 _ (by rw [hnum]; omega)]
  · have e : ((riffTag ++ leBytes 4 (36 + 176400 * d) ++ waveTag ++ fmtTag ++
        leBytes 4 16 ++ leBytes 2 1 ++ leBytes 2 2 ++ leBytes 4 44100 ++
        leBytes 4 (44100 * 2 * 16 / 8) ++ leBytes 2 (2 * 16 / 8) ++
        leBytes 2 16 ++ dataTag ++ leBytes 4 (176400 * d) ++
        List.replicate (176400 * d) 0).drop 40).take 4 =
      leBytes 4 (176400 * d) := rfl
    rw [e, fromLE_leBytes 4 _ (by rw [hnum]; omega)]
  · rfl

/-- Witness for C10 at duration 0 (44-byte header, empty payload). -/
theorem c10_witness :
    (0 : Nat) ≤ 24347 ∧
    ∃ bs, generate_mock_audio 0 = some bs ∧
      bs.length = 44 + 176400 * 0 ∧
      fromLE ((bs.drop 4).take 4) = 36 + 176400 * 0 ∧
      fromLE ((bs.drop 40).take 4) = 176400 * 0 ∧
      bs.drop 44 = List.replicate (176400 * 0) 0 :=
  ⟨by decide, c10_amended 0 (by decide)⟩

end MelodyAI
